import Mathlib

/-!
Shallow embedding of the runtime engine of `async-on-embedded`:
the waker registry (`src/async-embedded/src/unsync/waker_set.rs`),
the bounded MPMC channel and the mutex
(`src/async-cortex-m/src/unsync/channel.rs`, `mutex.rs`),
and the executor (`src/async-cortex-m/src/executor.rs`).

Wakers are modelled abstractly by a type `W`; "invoking a waker" is
reported as an output of the operation rather than as a side effect.
All state is passed explicitly.  `usize` values are modelled by `Nat`
with arithmetic taken modulo `USIZE = 2^32` exactly where the source
computes on `usize`: the channel's cursor guard `read + cap` and the
cursor bumps `wrapping_add(1)` (channel.rs lines 136, 158, 161).
Release builds of the crate wrap there (debug builds would panic and
so abort), and the wrap is observable: see the C4 counterexample.
-/

/-- `crate::NTASKS = typenum::consts::U8` (src/async-cortex-m/src/lib.rs):
capacity of the task table, the waker registries and the channel. -/
def NTASKS : Nat := 8

/-- One past the largest `usize` value: the crate targets the 32-bit
ARM Cortex-M profile (`async-cortex-m`), so `usize` arithmetic is
arithmetic modulo `2^32`. -/
def USIZE : Nat := 2 ^ 32

/-- One slab slot of the waker registry
(`entries: Slab<Option<Waker>, NTASKS>` in waker_set.rs):
`none` is a vacant slot, `some cb` an occupied entry whose callback `cb`
is `some w` while the waker is still present and `none` once the entry
has been notified (the waker was taken) but not yet removed. -/
abbrev Slots (W : Type) := List (Option (Option W))

/-- `WakerSet` of waker_set.rs: the slab of entries plus the `notifiable`
count.  A slot's position in the list is its key; the slab hands out the
lowest vacant key on insert and iterates occupied entries in key order
(the order the `slab`-style container underlying the port iterates in). -/
structure WakerSet (W : Type) where
  entries : Slots W
  notifiable : Nat
deriving DecidableEq, Repr

/-- `WakerSet::new()`: empty slab, notifiable count 0. -/
def WakerSet.new (W : Type) : WakerSet W := ⟨[], 0⟩

/-- `Notify` of waker_set.rs (`Any` / `One`). -/
inductive Notify
  | any
  | one
deriving DecidableEq, Repr

/-- The loop body of `WakerSet::notify` (waker_set.rs lines 113-134):
iterate occupied entries in key order; on an entry whose waker is still
present, take it (leave `some none`), report it as woken and stop
(`One` breaks after a take, `Any` breaks unconditionally after the first
occupied entry).  On an occupied entry whose waker is absent, `One`
continues to the next entry while `Any` breaks at once.  Returns the
updated slots, the waker to invoke (if any) and the `notified` flag. -/
def notifyGo (n : Notify) : Slots W → Slots W × Option W × Bool
  | [] => ([], none, false)
  | none :: rest =>
      let r := notifyGo n rest
      (none :: r.1, r.2)
  | some none :: rest =>
      match n with
      | .any => (some none :: rest, none, false)
      | .one =>
          let r := notifyGo .one rest
          (some none :: r.1, r.2)
  | some (some w) :: rest => (some none :: rest, some w, true)

/-- `WakerSet::notify`: run the loop, and decrement `notifiable` exactly
when a waker was taken (the code decrements once per take, and at most
one take happens for `One` as well as for `Any`). -/
def WakerSet.notify (n : Notify) (s : WakerSet W) : WakerSet W × Option W × Bool :=
  let r := notifyGo n s.entries
  (⟨r.1, if r.2.2 then s.notifiable - 1 else s.notifiable⟩, r.2)

/-- `WakerSet::notify_one()`. -/
def WakerSet.notifyOne (s : WakerSet W) : WakerSet W × Option W × Bool :=
  s.notify .one

/-- `WakerSet::notify_any()`. -/
def WakerSet.notifyAny (s : WakerSet W) : WakerSet W × Option W × Bool :=
  s.notify .any

/-- The value stored at key `k`: `none` if `k` is vacant or out of
range, otherwise the occupied entry's callback state. -/
def getSlot (k : Nat) (es : Slots W) : Option (Option W) :=
  (es.get? k).join

/-- The lowest vacant key of the slab, if any. -/
def firstVacant : Slots W → Option Nat
  | [] => none
  | none :: _ => some 0
  | some _ :: rest => (firstVacant rest).map (· + 1)

/-- `WakerSet::insert` (waker_set.rs lines 136-141): clone the context's
waker, store it in a free slot (`entries.insert(Some(w))`), increment
`notifiable`, return the key.  `.expect("OOM")` panics — and the crate's
panic handler (src/panic-udf) invokes the undefined-instruction abort —
when the slab already holds `NTASKS` entries; that is the `.error` case. -/
def WakerSet.insert (w : W) (s : WakerSet W) : Except Unit (Nat × WakerSet W) :=
  match firstVacant s.entries with
  | some k => .ok (k, ⟨s.entries.set k (some (some w)), s.notifiable + 1⟩)
  | none =>
      if s.entries.length < NTASKS then
        .ok (s.entries.length, ⟨s.entries ++ [some (some w)], s.notifiable + 1⟩)
      else
        .error ()

/-- `WakerSet::remove` (waker_set.rs lines 144-148): vacate the slot and
decrement `notifiable` exactly when the removed value still held its
waker (`if self.entries.remove(key).is_some()`). -/
def WakerSet.remove (k : Nat) (s : WakerSet W) : WakerSet W :=
  match getSlot k s.entries with
  | some (some _) => ⟨s.entries.set k none, s.notifiable - 1⟩
  | some none => ⟨s.entries.set k none, s.notifiable⟩
  | none => s

/-- `WakerSet::cancel` (waker_set.rs lines 77-94): remove the entry at
`key`.  If its waker was still present, just decrement `notifiable`
(the waker is dropped, not invoked).  If the entry had already been
notified (`None` waker), scan the remaining entries exactly like the
`Notify::One` loop: take and invoke the first live waker, decrement
`notifiable`, and return `true`; return `false` if none is left. -/
def WakerSet.cancel (k : Nat) (s : WakerSet W) : WakerSet W × Option W × Bool :=
  match getSlot k s.entries with
  | some (some _) => (⟨s.entries.set k none, s.notifiable - 1⟩, none, false)
  | some none =>
      let es := s.entries.set k none
      let r := notifyGo .one es
      (⟨r.1, if r.2.2 then s.notifiable - 1 else s.notifiable⟩, r.2)
  | none => (s, none, false)

/-- Is this slot an occupied entry whose waker is still present? -/
def isLive : Option (Option W) → Bool
  | some (some _) => true
  | _ => false

/-- Is this slot an occupied entry (with or without its waker)? -/
def isOccupied : Option (Option W) → Bool
  | some _ => true
  | _ => false

/-- Number of occupied entries whose waker is still present. -/
def liveCount (es : Slots W) : Nat := es.countP isLive

/-- Number of occupied entries (the slab's `len()`). -/
def occupiedCount (es : Slots W) : Nat := es.countP isOccupied

/-- The registry invariant: `notifiable` equals the number of entries
with a live waker, and the slab respects its capacity. -/
def WakerSet.Wf (s : WakerSet W) : Prop :=
  s.notifiable = liveCount s.entries ∧ s.entries.length ≤ NTASKS

/-- The callback state of the first occupied entry in key order, if the
registry has any occupied entry: this is the only entry `notify_any`
ever examines. -/
def headEnt : Slots W → Option (Option W)
  | [] => none
  | none :: rest => headEnt rest
  | some e :: _ => some e

instance : DecidablePred (WakerSet.Wf (W := W)) := fun s => by
  unfold WakerSet.Wf; infer_instance

/-- Replace the first occupied slot's value by `some none` (the shape of
the slots after a successful `notify_any`). -/
def takeHead : Slots W → Slots W
  | [] => []
  | none :: rest => none :: takeHead rest
  | some _ :: rest => some none :: rest

/-- One step of foreground use of a waker registry: the operations of
waker_set.rs, each performed on the current state. -/
inductive RStep : WakerSet W → WakerSet W → Prop
  | insert (s : WakerSet W) (w : W) (k : Nat) (s₂ : WakerSet W) :
      s.insert w = .ok (k, s₂) → RStep s s₂
  | remove (s : WakerSet W) (k : Nat) : RStep s (s.remove k)
  | cancel (s : WakerSet W) (k : Nat) : RStep s (s.cancel k).1
  | notify (s : WakerSet W) (n : Notify) : RStep s (s.notify n).1

/-- `Channel<T>` (channel.rs lines 25-31): a ring buffer of capacity
`NTASKS` with monotonically increasing `read`/`write` cursors and two
waker registries.  The `MaybeUninit` buffer is a list of `NTASKS`
slots, `none` standing for bytes never written; `try_recv` reads a slot
with `ptr::read`, which moves the bits out without erasing them, so the
buffer list is unchanged by a receive. -/
structure Channel (T W : Type) where
  buffer : List (Option T)
  read : Nat
  write : Nat
  send_wakers : WakerSet W
  recv_wakers : WakerSet W
deriving DecidableEq, Repr

/-- `Channel::new()`: zeroed cursors, uninitialized buffer, empty
registries. -/
def Channel.new (T W : Type) : Channel T W :=
  ⟨List.replicate NTASKS none, 0, 0, WakerSet.new W, WakerSet.new W⟩

/-- `Channel::try_recv` (channel.rs lines 126-146).  Result fields:
the received slot content (`none` when the channel is empty; on success
`some` of the slot's content, which is `some v` in every state whose
slot `read % NTASKS` was initialized — reading an uninitialized slot
would be undefined behaviour in the source), the new channel state, the
sender waker taken by `notify_one`, and whether
`crate::signal_event_ready()` was invoked. -/
def Channel.tryRecv (c : Channel T W) : Option (Option T) × Channel T W × Option W × Bool :=
  if c.write > c.read then
    let val := c.buffer.getD (c.read % NTASKS) none
    let r := c.send_wakers.notifyOne
    (some val, { c with read := (c.read + 1) % USIZE, send_wakers := r.1 }, r.2.1, true)
  else
    (none, c, none, false)

/-- `Channel::try_send` (channel.rs lines 151-171): if
`write < read + cap`, store the value at `write mod cap`, advance
`write` with `wrapping_add(1)`, `notify_one` on the receiver registry
and signal the event-set latch; otherwise return the value unsent and
do nothing.  `read + cap` is `usize` addition, taken modulo `USIZE`
(the wrap of a release build; a debug build would panic and abort), and
the cursor bump is likewise modulo `USIZE`. -/
def Channel.trySend (v : T) (c : Channel T W) : Except T Unit × Channel T W × Option W × Bool :=
  if c.write < (c.read + NTASKS) % USIZE then
    let r := c.recv_wakers.notifyOne
    (.ok (), { c with buffer := c.buffer.set (c.write % NTASKS) (some v),
                      write := (c.write + 1) % USIZE, recv_wakers := r.1 }, r.2.1, true)
  else
    (.error v, c, none, false)

/-- A sequence of `try_send` calls, returning each call's result and
the final channel state. -/
def trySendMany (vs : List T) (c : Channel T W) : List (Except T Unit) × Channel T W :=
  match vs with
  | [] => ([], c)
  | v :: rest =>
      let r := c.trySend v
      let rr := trySendMany rest r.2.1
      (r.1 :: rr.1, rr.2)

/-- The state of the `Send` future of `Channel::send` (channel.rs lines
47-51): the message not yet delivered and the registry key under which
the future is currently suspended. -/
structure SendFut (T : Type) where
  msg : Option T
  opt_key : Option Nat
deriving DecidableEq, Repr

/-- The state of the `Recv` future of `Channel::recv` (channel.rs lines
91-94). -/
structure RecvFut where
  opt_key : Option Nat
deriving DecidableEq, Repr

/-- `core::task::Poll`. -/
inductive Poll (α : Type)
  | ready (val : α)
  | pending
deriving DecidableEq, Repr

/-- `Send::poll` (channel.rs lines 60-78): take the message (aborting
on the `expect("UNREACHABLE")` if it is absent), de-register the stored
key if any, retry `try_send`; on failure re-register with the sender
registry (which aborts when that registry is full) and return pending.
`w` is the waker of the polling context. -/
def sendPoll (w : W) (f : SendFut T) (c : Channel T W) :
    Except Unit (Poll Unit × SendFut T × Channel T W × Option W × Bool) :=
  match f.msg with
  | none => .error ()
  | some msg =>
      let c1 := match f.opt_key with
        | some k => { c with send_wakers := c.send_wakers.remove k }
        | none => c
      let r := c1.trySend msg
      match r.1 with
      | .ok _ => .ok (.ready (), ⟨none, none⟩, r.2.1, r.2.2.1, r.2.2.2)
      | .error m =>
          match (r.2.1).send_wakers.insert w with
          | .ok (k, ws) =>
              .ok (.pending, ⟨some m, some k⟩, { r.2.1 with send_wakers := ws }, none, false)
          | .error _ => .error ()

/-- `Recv::poll` (channel.rs lines 99-113): de-register the stored key
if any, retry `try_recv`; on failure re-register with the receiver
registry and return pending. -/
def recvPoll (w : W) (f : RecvFut) (c : Channel T W) :
    Except Unit (Poll (Option T) × RecvFut × Channel T W × Option W × Bool) :=
  let c1 := match f.opt_key with
    | some k => { c with recv_wakers := c.recv_wakers.remove k }
    | none => c
  let r := c1.tryRecv
  match r.1 with
  | some v => .ok (.ready v, ⟨none⟩, r.2.1, r.2.2.1, r.2.2.2)
  | none =>
      match (r.2.1).recv_wakers.insert w with
      | .ok (k, ws) =>
          .ok (.pending, ⟨some k⟩, { r.2.1 with recv_wakers := ws }, none, false)
      | .error _ => .error ()

/-- Dropping a `Send` future: the `Send` struct of channel.rs has no
`Drop` impl, so dropping it performs no channel or registry operation
at all — in particular it never calls `cancel`, even while `opt_key`
still holds a registered key. -/
def sendDrop (_f : SendFut T) (c : Channel T W) : Channel T W := c

/-- Dropping a `Recv` future: the `Recv` struct of channel.rs likewise
has no `Drop` impl, so the drop is a no-op on the channel. -/
def recvDrop (_f : RecvFut) (c : Channel T W) : Channel T W := c

/-- `Mutex<T>` (mutex.rs lines 14-18) together with a ghost field:
`guards` counts the `MutexGuard` values currently alive.  It is not a
field of the Rust struct and no modelled operation reads it; it only
records guard creation (`try_lock` success) and guard destruction. -/
structure Mutex (T W : Type) where
  locked : Bool
  value : T
  wakers : WakerSet W
  guards : Nat
deriving DecidableEq, Repr

/-- `Mutex::new(t)`. -/
def Mutex.new (W : Type) (t : T) : Mutex T W :=
  ⟨false, t, WakerSet.new W, 0⟩

/-- `Mutex::try_lock` (mutex.rs lines 78-86): acquire exactly when the
`locked` flag is clear; the returned Bool is whether a guard was
produced. -/
def Mutex.tryLock (m : Mutex T W) : Bool × Mutex T W :=
  if m.locked then (false, m)
  else (true, { m with locked := true, guards := m.guards + 1 })

/-- `Drop for MutexGuard` (mutex.rs lines 91-96): clear the `locked`
flag, then `notify_any` on the waiter registry.  Returns the new state,
the waker invoked (if any) and `notify_any`'s result. -/
def guardDrop (m : Mutex T W) : Mutex T W × Option W × Bool :=
  let r := m.wakers.notifyAny
  ({ m with locked := false, wakers := r.1, guards := m.guards - 1 }, r.2)

/-- The state of the `Lock` future of `Mutex::lock` (mutex.rs lines
34-37). -/
structure LockFut where
  opt_key : Option Nat
deriving DecidableEq, Repr

/-- `Lock::poll` (mutex.rs lines 42-58): de-register the stored key if
any, retry `try_lock`; while the mutex is held, register with the
waiter registry (abort if it is full) and return pending. -/
def lockPoll (w : W) (f : LockFut) (m : Mutex T W) :
    Except Unit (Poll Unit × LockFut × Mutex T W) :=
  let m1 := match f.opt_key with
    | some k => { m with wakers := m.wakers.remove k }
    | none => m
  let r := m1.tryLock
  if r.1 then
    .ok (.ready (), ⟨none⟩, r.2)
  else
    match m1.wakers.insert w with
    | .ok (k, ws) => .ok (.pending, ⟨some k⟩, { m1 with wakers := ws })
    | .error _ => .error ()

/-- `Drop for Lock` (mutex.rs lines 61-68): if the future is still
registered, `cancel` its key. -/
def lockDrop (f : LockFut) (m : Mutex T W) : Mutex T W × Option W × Bool :=
  match f.opt_key with
  | some k =>
      let r := m.wakers.cancel k
      ({ m with wakers := r.1 }, r.2)
  | none => (m, none, false)

/-- One foreground step on a mutex: a `try_lock` call, a poll of a
`Lock` future, the destruction of a live guard, or the drop of a `Lock`
future. -/
inductive MStep : Mutex T W → Mutex T W → Prop
  | tryLock (m : Mutex T W) : MStep m (m.tryLock).2
  | lockPoll (m : Mutex T W) (w : W) (f : LockFut) (p : Poll Unit) (f₂ : LockFut)
      (m₂ : Mutex T W) : lockPoll w f m = .ok (p, f₂, m₂) → MStep m m₂
  | guardDrop (m : Mutex T W) : 1 ≤ m.guards → MStep m (guardDrop m).1
  | lockDrop (m : Mutex T W) (f : LockFut) : MStep m (lockDrop f m).1

/-- The re-entry guard at the top of `Executor::block_on` (executor.rs
lines 57-61): a nested call finds `in_block_on` already set and invokes
`crate::abort()`. -/
def blockOnEnter (in_block_on : Bool) : Except Unit Unit :=
  if in_block_on then .error () else .ok ()

/-- `Executor::spawn` (executor.rs lines 131-139): push onto the
`heapless::Vec<&Task, NTASKS>` task table; when the push fails because
the table already holds `NTASKS` tasks, invoke `crate::abort()`. -/
def spawnPush (tasks : List α) (t : α) : Except Unit (List α) :=
  if tasks.length < NTASKS then .ok (tasks ++ [t]) else .error ()

/-- The shim `Task::new` wraps around a spawned computation
(executor.rs lines 158-164): polling the shim polls the user future,
and if that future ever resolves the shim invokes `crate::abort()`;
spawned tasks must never terminate. -/
def shimPoll (r : Poll α) : Except Unit (Poll Unit) :=
  match r with
  | .ready _ => .error ()
  | .pending => .ok .pending

/-- The thread-mode gate of `executor::current` (executor.rs lines
179-182): any access to the executor singleton from interrupt context
(`!in_thread_mode()`) invokes `crate::abort()`. -/
def currentGate (in_thread_mode : Bool) : Except Unit Unit :=
  if in_thread_mode then .ok () else .error ()

/-- Modelled from the spec: `src/async-cortex-m/src/alloc.rs` (the bump
arena of spec section 4.1) is not present in the source tree.  Per the
spec the arena owns a fixed byte region; `pos` is the monotonically
advancing cursor and `size` the byte budget. -/
structure Alloc where
  pos : Nat
  size : Nat
deriving DecidableEq, Repr

/-- Modelled from the spec: round `pos` up to the next multiple of
`align` (the cursor is advanced so the stored value's alignment is
honored). -/
def alignUp (pos align : Nat) : Nat :=
  if align = 0 then pos else ((pos + align - 1) / align) * align

/-- Modelled from the spec: `alloc_init` for a value of size `sz` bytes
and alignment `align` advances the cursor and returns the chosen
offset; running out of space invokes the platform abort. -/
def Alloc.allocInit (align sz : Nat) (a : Alloc) : Except Unit (Nat × Alloc) :=
  let start := alignUp a.pos align
  if start + sz ≤ a.size then .ok (start, ⟨start + sz, a.size⟩) else .error ()

/-- A store to one task's atomic `ready` flag: `wake` is the
`store(true, Release)` performed by the waker vtable (executor.rs lines
30-35, from a waker or an interrupt handler), `clear` the executor's
`store(false, Release)` before a poll. -/
inductive Ev
  | wake
  | clear
deriving DecidableEq, Repr

/-- The value of a ready flag after a sequence of stores (the flag is a
single atomic boolean, so the stores of one interleaving apply in
order). -/
def runFlag (b : Bool) : List Ev → Bool
  | [] => b
  | .wake :: es => runFlag true es
  | .clear :: es => runFlag false es

/-- One servicing of a task by the `block_on` loop (executor.rs lines
92-111), described by the stores to that task's ready flag: if the
acquire-load observes `true`, the executor stores `false` and only then
polls the computation; `during` lists the wake stores performed between
that clear and the next acquire-load of the flag — by interrupt
handlers during the poll, by the poll itself, or after the poll has
returned pending.  If the load observes `false` the task is not
touched, and `during` are the stores arriving before the next load.
Returns (task was polled this round, flag value the next round's load
observes). -/
def serviceTask (ready : Bool) (during : List Ev) : Bool × Bool :=
  if ready then (true, runFlag ready (Ev.clear :: during))
  else (false, runFlag ready during)

theorem countP_set_add (p : α → Bool) (es : List α) (k : Nat) (a b : α)
    (h : es.get? k = some a) :
    (es.set k b).countP p + (if p a then 1 else 0)
      = es.countP p + (if p b then 1 else 0) := by
  induction es generalizing k with
  | nil => simp at h
  | cons x xs ih =>
    cases k with
    | zero =>
      simp only [List.get?_cons_zero, Option.some_inj] at h
      subst h
      simp only [List.set_cons_zero, List.countP_cons]
      omega
    | succ k =>
      simp only [List.get?_cons_succ] at h
      simp only [List.set_cons_succ, List.countP_cons]
      have := ih k h
      omega

theorem liveCount_nil : liveCount ([] : Slots W) = 0 := rfl

theorem liveCount_cons (x : Option (Option W)) (xs : Slots W) :
    liveCount (x :: xs) = liveCount xs + (if isLive x then 1 else 0) := by
  unfold liveCount
  rw [List.countP_cons]

theorem occupiedCount_nil : occupiedCount ([] : Slots W) = 0 := rfl

theorem occupiedCount_cons (x : Option (Option W)) (xs : Slots W) :
    occupiedCount (x :: xs) = occupiedCount xs + (if isOccupied x then 1 else 0) := by
  unfold occupiedCount
  rw [List.countP_cons]

theorem liveCount_le_occupied (es : Slots W) : liveCount es ≤ occupiedCount es := by
  induction es with
  | nil => exact Nat.le.refl
  | cons x xs ih =>
    rw [liveCount_cons, occupiedCount_cons]
    rcases x with _ | (_ | w) <;> simp [isLive, isOccupied] <;> omega

/-- Every occupied entry is live when the live count equals the
occupied count. -/
theorem live_of_counts_eq {es : Slots W}
    (h : liveCount es = occupiedCount es) :
    ∀ e, some e ∈ es → ∃ w, e = some w := by
  induction es with
  | nil => simp
  | cons x xs ih =>
    intro e he
    rw [liveCount_cons, occupiedCount_cons] at h
    rcases x with _ | (_ | w)
    · simp [isLive, isOccupied] at h
      rcases List.mem_cons.1 he with h' | h'
      · cases h'
      · exact ih h e h'
    · exfalso
      have hle := liveCount_le_occupied xs
      simp [isLive, isOccupied] at h
      omega
    · simp [isLive, isOccupied] at h
      rcases List.mem_cons.1 he with h' | h'
      · exact ⟨w, by injection h'⟩
      · exact ih h e h'

theorem headEnt_isSome_of_occupied {es : Slots W}
    (h : occupiedCount es ≠ 0) : ∃ e, headEnt es = some e := by
  induction es with
  | nil => simp [occupiedCount] at h
  | cons x xs ih =>
    rcases x with _ | e
    · rw [occupiedCount_cons] at h
      simp [isOccupied] at h
      exact (by simpa [headEnt] using ih h)
    · exact ⟨e, rfl⟩

theorem headEnt_mem {es : Slots W} {e : Option W}
    (h : headEnt es = some e) : some e ∈ es := by
  induction es with
  | nil => simp [headEnt] at h
  | cons x xs ih =>
    rcases x with _ | e'
    · exact List.mem_cons_of_mem _ (ih (by simpa [headEnt] using h))
    · simp [headEnt] at h
      simp [h]

/-- Full characterization of the `notify` loop: either it finds no
waker to take and leaves the slots untouched, or it takes exactly one
live waker, at a key it reports, and otherwise leaves the slots
untouched. -/
theorem notifyGo_char (n : Notify) (es : Slots W) :
    notifyGo n es = (es, none, false) ∨
      ∃ k w, es.get? k = some (some (some w)) ∧
        notifyGo n es = (es.set k (some none), some w, true) := by
  induction es with
  | nil => left; rfl
  | cons x xs ih =>
    rcases x with _ | (_ | w)
    · rcases ih with h | ⟨k, w, hk, h⟩
      · left; simp [notifyGo, h]
      · right; exact ⟨k + 1, w, by simpa using hk, by simp [notifyGo, h]⟩
    · cases n with
      | any => left; rfl
      | one =>
        rcases ih with h | ⟨k, w, hk, h⟩
        · left; simp [notifyGo, h]
        · right; exact ⟨k + 1, w, by simpa using hk, by simp [notifyGo, h]⟩
    · right; exact ⟨0, w, rfl, rfl⟩

/-- `notify_any` when the first occupied entry still holds its waker. -/
theorem notifyGo_any_head_live {es : Slots W} {w : W}
    (h : headEnt es = some (some w)) :
    notifyGo .any es = (takeHead es, some w, true) := by
  induction es with
  | nil => simp [headEnt] at h
  | cons x xs ih =>
    rcases x with _ | (_ | w')
    · simp [headEnt] at h
      simp [notifyGo, takeHead, ih h]
    · simp [headEnt] at h
    · simp [headEnt] at h
      subst h
      rfl

/-- `notify_any` when the registry is empty of occupied entries or its
first occupied entry was already notified: nothing happens. -/
theorem notifyGo_any_head_dead {es : Slots W}
    (h : headEnt es = none ∨ headEnt es = some none) :
    notifyGo .any es = (es, none, false) := by
  induction es with
  | nil => rfl
  | cons x xs ih =>
    rcases x with _ | (_ | w')
    · have := ih (by simpa [headEnt] using h)
      simp [notifyGo, this]
    · rfl
    · rcases h with h | h <;> simp [headEnt] at h

theorem getSlot_eq_some {es : Slots W} {k : Nat} {e : Option W} :
    getSlot k es = some e ↔ es.get? k = some (some e) := by
  unfold getSlot
  rcases h : es.get? k with _ | (_ | e') <;> simp [Option.join]

theorem firstVacant_get {es : Slots W} {k : Nat}
    (h : firstVacant es = some k) : es.get? k = some none := by
  induction es generalizing k with
  | nil => simp [firstVacant] at h
  | cons x xs ih =>
    rcases x with _ | e
    · simp [firstVacant] at h
      subst h
      rfl
    · simp [firstVacant] at h
      rcases h with ⟨k', hk', rfl⟩
      simpa using ih hk'

theorem liveCount_set_of_get {es : Slots W} {k : Nat}
    (a b : Option (Option W)) (h : es.get? k = some a) :
    liveCount (es.set k b) + (if isLive a then 1 else 0)
      = liveCount es + (if isLive b then 1 else 0) :=
  countP_set_add isLive es k a b h

theorem liveCount_append_live (es : Slots W) (w : W) :
    liveCount (es ++ [some (some w)]) = liveCount es + 1 := by
  unfold liveCount
  rw [List.countP_append]
  rfl

/-- A live entry makes the live count positive. -/
theorem liveCount_pos_of_live {es : Slots W} {k : Nat} {w : W}
    (h : es.get? k = some (some (some w))) : 1 ≤ liveCount es := by
  have := liveCount_set_of_get (some (some w)) none h
  simp [isLive] at this
  omega

/-- `insert` preserves the registry invariant. -/
theorem insert_Wf {s : WakerSet W} {w : W} {k : Nat} {s₂ : WakerSet W}
    (hwf : s.Wf) (h : s.insert w = .ok (k, s₂)) : s₂.Wf := by
  obtain ⟨hn, hl⟩ := hwf
  unfold WakerSet.insert at h
  rcases hv : firstVacant s.entries with _ | k'
  · rw [hv] at h
    by_cases hlen : s.entries.length < NTASKS
    · rw [if_pos hlen] at h
      injection h with h
      injection h with h1 h2
      subst h2
      constructor
      · simp [liveCount_append_live, hn]
      · simp
        omega
    · rw [if_neg hlen] at h
      cases h
  · rw [hv] at h
    injection h with h
    injection h with h1 h2
    subst h2
    have hget := firstVacant_get hv
    have := liveCount_set_of_get none (some (some w)) hget
    constructor
    · simp only [isLive] at this
      simp at this
      simp only [hn]
      omega
    · simpa [List.length_set] using hl

/-- `remove` preserves the registry invariant. -/
theorem remove_Wf {s : WakerSet W} (k : Nat) (hwf : s.Wf) : (s.remove k).Wf := by
  obtain ⟨hn, hl⟩ := hwf
  unfold WakerSet.remove
  rcases hg : getSlot k s.entries with _ | (_ | w)
  · simp only [hg]
    exact ⟨hn, hl⟩
  · simp only [hg]
    have hget := getSlot_eq_some.1 hg
    have h0 := liveCount_set_of_get (some none) none hget
    simp [isLive] at h0
    refine ⟨?_, ?_⟩
    · show s.notifiable = liveCount (s.entries.set k none)
      omega
    · show (s.entries.set k none).length ≤ NTASKS
      simpa [List.length_set] using hl
  · simp only [hg]
    have hget := getSlot_eq_some.1 hg
    have h0 := liveCount_set_of_get (some (some w)) none hget
    simp [isLive] at h0
    refine ⟨?_, ?_⟩
    · show s.notifiable - 1 = liveCount (s.entries.set k none)
      omega
    · show (s.entries.set k none).length ≤ NTASKS
      simpa [List.length_set] using hl

/-- `notify` preserves the registry invariant. -/
theorem notify_Wf {s : WakerSet W} (n : Notify) (hwf : s.Wf) : ((s.notify n).1).Wf := by
  obtain ⟨hn, hl⟩ := hwf
  unfold WakerSet.notify
  rcases notifyGo_char n s.entries with h | ⟨k, w, hk, h⟩
  · simp only [h]
    exact ⟨hn, hl⟩
  · simp only [h]
    have h0 := liveCount_set_of_get (some (some w)) (some none) hk
    simp [isLive] at h0
    have h2 : 1 ≤ liveCount s.entries := liveCount_pos_of_live hk
    refine ⟨?_, ?_⟩
    · show s.notifiable - 1 = liveCount (s.entries.set k (some none))
      omega
    · show (s.entries.set k (some none)).length ≤ NTASKS
      simpa [List.length_set] using hl

/-- `cancel` preserves the registry invariant. -/
theorem cancel_Wf {s : WakerSet W} (k : Nat) (hwf : s.Wf) : ((s.cancel k).1).Wf := by
  obtain ⟨hn, hl⟩ := hwf
  unfold WakerSet.cancel
  rcases hg : getSlot k s.entries with _ | (_ | w)
  · simp only [hg]
    exact ⟨hn, hl⟩
  · simp only [hg]
    have hget := getSlot_eq_some.1 hg
    have h0 := liveCount_set_of_get (some none) none hget
    simp [isLive] at h0
    rcases notifyGo_char .one (s.entries.set k none) with h | ⟨j, w', hj, h⟩
    · simp only [h]
      refine ⟨?_, ?_⟩
      · show s.notifiable = liveCount (s.entries.set k none)
        omega
      · show (s.entries.set k none).length ≤ NTASKS
        simpa [List.length_set] using hl
    · simp only [h]
      have h1 := liveCount_set_of_get (some (some w')) (some none) hj
      simp [isLive] at h1
      have h2 : 1 ≤ liveCount (s.entries.set k none) :=
        liveCount_pos_of_live hj
      refine ⟨?_, ?_⟩
      · show s.notifiable - 1 = liveCount ((s.entries.set k none).set j (some none))
        omega
      · show ((s.entries.set k none).set j (some none)).length ≤ NTASKS
        simpa [List.length_set] using hl
  · simp only [hg]
    have hget := getSlot_eq_some.1 hg
    have h0 := liveCount_set_of_get (some (some w)) none hget
    simp [isLive] at h0
    refine ⟨?_, ?_⟩
    · show s.notifiable - 1 = liveCount (s.entries.set k none)
      omega
    · show (s.entries.set k none).length ≤ NTASKS
      simpa [List.length_set] using hl

/-- Registry states reachable by foreground operations are well-formed. -/
theorem reach_Wf {s : WakerSet W}
    (h : Relation.ReflTransGen RStep (WakerSet.new W) s) : s.Wf := by
  induction h with
  | refl => exact ⟨rfl, by simp [WakerSet.new, NTASKS]⟩
  | tail h1 hstep ih =>
    cases hstep with
    | insert w k s₂ he => exact insert_Wf ih he
    | remove k => exact remove_Wf k ih
    | cancel k => exact cancel_Wf k ih
    | notify n => exact notify_Wf n ih

/-- The `Notify::One` loop reports no notification exactly when no
entry holds a live waker. -/
theorem notifyGo_one_false_iff {es : Slots W} :
    (notifyGo .one es).2.2 = false ↔ liveCount es = 0 := by
  induction es with
  | nil => simp [notifyGo, liveCount]
  | cons x xs ih =>
    rcases x with _ | (_ | w) <;>
      simp [notifyGo, liveCount_cons, isLive, ih]

/-- C5: for every reachable waker-registry state the notifiable count
equals the number of entries whose callback is present; this equality
is preserved by `insert`, `remove`, `cancel`, `notify_one` and
`notify_any`; and a single `notify` call changes at most one entry from
callback-present to callback-absent (all other slots are untouched). -/
theorem C5_registry_invariant {W : Type} (s : WakerSet W)
    (hreach : Relation.ReflTransGen RStep (WakerSet.new W) s) :
    s.notifiable = liveCount s.entries ∧
    (∀ (w : W) (k : Nat) (s₂ : WakerSet W), s.insert w = .ok (k, s₂) →
       s₂.notifiable = liveCount s₂.entries) ∧
    (∀ k : Nat, (s.remove k).notifiable = liveCount (s.remove k).entries) ∧
    (∀ k : Nat, ((s.cancel k).1).notifiable = liveCount ((s.cancel k).1).entries) ∧
    (∀ n : Notify, ((s.notify n).1).notifiable = liveCount ((s.notify n).1).entries) ∧
    (∀ n : Notify, ((s.notify n).1).entries = s.entries ∨
       ∃ (k : Nat) (w : W), s.entries.get? k = some (some (some w)) ∧
         ((s.notify n).1).entries = s.entries.set k (some none)) := by
  have hwf := reach_Wf hreach
  refine ⟨hwf.1, ?_, ?_, ?_, ?_, ?_⟩
  · intro w k s₂ he
    exact (insert_Wf hwf he).1
  · intro k
    exact (remove_Wf k hwf).1
  · intro k
    exact (cancel_Wf k hwf).1
  · intro n
    exact (notify_Wf n hwf).1
  · intro n
    rcases notifyGo_char n s.entries with h | ⟨k, w, hk, h⟩
    · left
      show (notifyGo n s.entries).1 = s.entries
      rw [h]
    · right
      refine ⟨k, w, hk, ?_⟩
      show (notifyGo n s.entries).1 = s.entries.set k (some none)
      rw [h]

/-- C5 witness: the invariant instantiated at the registry reached from
`new` by inserting the waker `3`. -/
theorem C5_registry_invariant_witness :
    WakerSet.notifiable (W := Nat) ⟨[some (some 3)], 1⟩ =
      liveCount (WakerSet.entries (W := Nat) ⟨[some (some 3)], 1⟩) :=
  (C5_registry_invariant (W := Nat) ⟨[some (some 3)], 1⟩
    (Relation.ReflTransGen.single (RStep.insert _ 3 0 _ rfl))).1

/-- C2 counterexample: the registry state with entries
`[entry 0: live waker 9, entry 1: notified]` is reachable, its
notifiable count (1) differs from its entry count (2) — so a
notification is outstanding — and yet `notify_any` notifies entry 0 and
mutates the state instead of returning `false` without doing anything,
contradicting the claim's "otherwise" branch. -/
theorem C2_counterexample :
    Relation.ReflTransGen RStep (WakerSet.new Nat)
        ⟨[some (some 9), some none], 1⟩ ∧
    WakerSet.notifiable (W := Nat) ⟨[some (some 9), some none], 1⟩ ≠
      occupiedCount (WakerSet.entries (W := Nat) ⟨[some (some 9), some none], 1⟩) ∧
    (WakerSet.notifyAny (W := Nat) ⟨[some (some 9), some none], 1⟩).2.2 = true ∧
    (WakerSet.notifyAny (W := Nat) ⟨[some (some 9), some none], 1⟩).1 ≠
      ⟨[some (some 9), some none], 1⟩ := by
  refine ⟨?_, by decide, by decide, by decide⟩
  have h1 : RStep (WakerSet.new Nat) ⟨[some (some 5)], 1⟩ :=
    RStep.insert _ 5 0 _ rfl
  have h2 : RStep (⟨[some (some 5)], 1⟩ : WakerSet Nat)
      ⟨[some (some 5), some (some 6)], 2⟩ :=
    RStep.insert _ 6 1 _ rfl
  have h3 : RStep (⟨[some (some 5), some (some 6)], 2⟩ : WakerSet Nat)
      ⟨[some none, some (some 6)], 1⟩ :=
    RStep.notify _ .one
  have h4 : RStep (⟨[some none, some (some 6)], 1⟩ : WakerSet Nat)
      ⟨[some none, some none], 0⟩ :=
    RStep.notify _ .one
  have h5 : RStep (⟨[some none, some none], 0⟩ : WakerSet Nat)
      ⟨[none, some none], 0⟩ :=
    RStep.remove _ 0
  have h6 : RStep (⟨[none, some none], 0⟩ : WakerSet Nat)
      ⟨[some (some 9), some none], 1⟩ :=
    RStep.insert _ 9 0 _ rfl
  exact (((((Relation.ReflTransGen.refl.tail h1).tail h2).tail h3).tail
    h4).tail h5).tail h6

/-- C2 (amended): `notify_any` examines only the first occupied entry
in key order.  When that entry still holds its callback, it takes and
invokes it, decrements the notifiable count and returns `true`; in
every other case (no occupied entry, or the first occupied entry was
already notified) it returns `false` without modifying anything.  In
particular, in a well-formed state in which the notifiable count equals
the entry count and is nonzero — no notification in flight — it does
notify one entry. -/
theorem C2_notify_any_amended {W : Type} (s : WakerSet W) :
    (∀ w : W, headEnt s.entries = some (some w) →
       s.notifyAny = (⟨takeHead s.entries, s.notifiable - 1⟩, some w, true)) ∧
    (headEnt s.entries = none ∨ headEnt s.entries = some none →
       s.notifyAny = (s, none, false)) ∧
    (s.Wf → s.notifiable = occupiedCount s.entries → s.notifiable ≠ 0 →
       (s.notifyAny).2.2 = true) := by
  refine ⟨?_, ?_, ?_⟩
  · intro w h
    unfold WakerSet.notifyAny WakerSet.notify
    rw [notifyGo_any_head_live h]
    rfl
  · intro h
    unfold WakerSet.notifyAny WakerSet.notify
    rw [notifyGo_any_head_dead h]
    rfl
  · intro hwf hocc hne
    have hcnt : liveCount s.entries = occupiedCount s.entries := by
      rw [← hwf.1, hocc]
    have hoccne : occupiedCount s.entries ≠ 0 := by
      rw [← hocc]; exact hne
    obtain ⟨e, he⟩ := headEnt_isSome_of_occupied hoccne
    obtain ⟨w, rfl⟩ := live_of_counts_eq hcnt e (headEnt_mem he)
    unfold WakerSet.notifyAny WakerSet.notify
    rw [notifyGo_any_head_live he]

/-- C2 amended witness: a registry with the single live entry `4` is
notified by `notify_any`. -/
theorem C2_notify_any_amended_witness :
    WakerSet.notifyAny (W := Nat) ⟨[some (some 4)], 1⟩ =
      (⟨[some none], 0⟩, some 4, true) :=
  (C2_notify_any_amended (W := Nat) ⟨[some (some 4)], 1⟩).1 4 rfl

/-- C3: for a key `k` occupied in the registry, `cancel k` removes the
entry; when the entry still held its callback the notifiable count is
decremented and nothing is woken (returning `false`); when the callback
was absent (already notified), the first other entry with a live
callback — if any exists — has its callback taken and invoked and the
notifiable count decremented for it, and `cancel` returns `true`
exactly when such an alternate was notified. -/
theorem C3_cancel_spec {W : Type} (s : WakerSet W) (k : Nat) (e : Option W)
    (hk : getSlot k s.entries = some e) :
    (∀ w : W, e = some w →
       s.cancel k = (⟨s.entries.set k none, s.notifiable - 1⟩, none, false)) ∧
    (e = none →
       ((s.cancel k).2.2 = true ↔ 0 < liveCount (s.entries.set k none)) ∧
       (liveCount (s.entries.set k none) = 0 →
          s.cancel k = (⟨s.entries.set k none, s.notifiable⟩, none, false)) ∧
       (0 < liveCount (s.entries.set k none) →
          ∃ (j : Nat) (w : W), (s.entries.set k none).get? j = some (some (some w)) ∧
            s.cancel k = (⟨(s.entries.set k none).set j (some none),
              s.notifiable - 1⟩, some w, true))) := by
  constructor
  · rintro w rfl
    unfold WakerSet.cancel
    rw [hk]
  · rintro rfl
    unfold WakerSet.cancel
    rw [hk]
    rcases notifyGo_char .one (s.entries.set k none) with h | ⟨j, w', hj, h⟩
    · have hz : liveCount (s.entries.set k none) = 0 := by
        rw [← notifyGo_one_false_iff]
        rw [h]
      refine ⟨?_, ?_, ?_⟩
      · simp only [h, hz]
        simp
      · intro _
        simp only [h]
        rfl
      · intro hpos
        omega
    · have hpos : 0 < liveCount (s.entries.set k none) :=
        liveCount_pos_of_live hj
      refine ⟨?_, ?_, ?_⟩
      · simp only [h]
        simpa using hpos
      · intro hz
        omega
      · intro _
        exact ⟨j, w', hj, by simp only [h]; rfl⟩

/-- C3 witness: cancelling the live entry 0 in a two-entry registry
removes it and decrements the count without waking anyone, and
cancelling a notified entry wakes the remaining live entry. -/
theorem C3_cancel_spec_witness :
    WakerSet.cancel (W := Nat) 0 ⟨[some (some 3), some none], 1⟩ =
      (⟨[none, some none], 0⟩, none, false) :=
  (C3_cancel_spec (W := Nat) ⟨[some (some 3), some none], 1⟩ 0 (some 3)
    rfl).1 3 rfl

/-- `try_send` on a channel with room, away from the `usize` wrap
boundary (`read + NTASKS` representable): store the value, advance
`write`, `notify_one` a receiver, signal the event-set latch. -/
theorem trySend_lt {c : Channel T W} (v : T) (h : c.write < c.read + NTASKS)
    (hno : c.read + NTASKS < USIZE) :
    c.trySend v = (.ok (),
      { c with buffer := c.buffer.set (c.write % NTASKS) (some v),
               write := c.write + 1,
               recv_wakers := (c.recv_wakers.notifyOne).1 },
      (c.recv_wakers.notifyOne).2.1, true) := by
  unfold Channel.trySend
  rw [Nat.mod_eq_of_lt hno, if_pos h,
    Nat.mod_eq_of_lt (show c.write + 1 < USIZE by omega)]

/-- `try_send` on a full channel: the value comes back and nothing
happens (the wrapped guard `(read + cap) % USIZE` is at most
`read + cap ≤ write`, so the `else` branch is taken). -/
theorem trySend_full {c : Channel T W} (v : T) (h : c.read + NTASKS ≤ c.write) :
    c.trySend v = (.error v, c, none, false) := by
  unfold Channel.trySend
  have hm : (c.read + NTASKS) % USIZE ≤ c.read + NTASKS := Nat.mod_le _ _
  rw [if_neg (by omega)]

/-- `try_recv` on a nonempty channel whose `read` cursor is below the
wrap boundary: read slot `read mod cap`, advance `read`, `notify_one` a
sender, signal the event-set latch. -/
theorem tryRecv_lt {c : Channel T W} (h : c.read < c.write)
    (hno : c.read + 1 < USIZE) :
    c.tryRecv = (some (c.buffer.getD (c.read % NTASKS) none),
      { c with read := c.read + 1, send_wakers := (c.send_wakers.notifyOne).1 },
      (c.send_wakers.notifyOne).2.1, true) := by
  unfold Channel.tryRecv
  rw [if_pos h, Nat.mod_eq_of_lt hno]

/-- `try_recv` on an empty channel: `None` and nothing happens. -/
theorem tryRecv_empty {c : Channel T W} (h : c.write ≤ c.read) :
    c.tryRecv = (none, c, none, false) := by
  unfold Channel.tryRecv
  rw [if_neg (by omega)]

/-- As long as the ring has room for them, consecutive `try_send`s all
succeed, advancing `write` once each and never touching `read`. -/
theorem trySendMany_ok {vs : List T} {c : Channel T W}
    (h : c.write + vs.length ≤ c.read + NTASKS)
    (hno : c.read + NTASKS < USIZE) :
    (∀ r ∈ (trySendMany vs c).1, r = .ok ()) ∧
    (trySendMany vs c).2.write = c.write + vs.length ∧
    (trySendMany vs c).2.read = c.read := by
  induction vs generalizing c with
  | nil => simp [trySendMany]
  | cons v rest ih =>
    have hlt : c.write < c.read + NTASKS := by
      simp at h
      omega
    have hsend := trySend_lt v hlt hno
    have hih := ih (c := (c.trySend v).2.1)
      (by rw [hsend]; simp at h ⊢; omega)
      (by rw [hsend]; exact hno)
    unfold trySendMany
    refine ⟨?_, ?_, ?_⟩
    · intro r hr
      simp at hr
      rcases hr with hr | hr
      · rw [hr, hsend]
      · exact hih.1 r hr
    · simp only [List.length_cons]
      rw [hih.2.1, hsend]
      simp
      omega
    · rw [hih.2.2, hsend]

/-- C10: a failed channel operation is pure.  When `try_send` finds the
channel full it returns the value unsent with the cursors, buffer and
both registries untouched, no waker invoked and no event-set signal;
when `try_recv` finds the channel empty it likewise returns `None` and
changes nothing. -/
theorem C10_failed_ops_pure {T W : Type} (c : Channel T W) (v : T) :
    (c.read + NTASKS ≤ c.write → c.trySend v = (.error v, c, none, false)) ∧
    (c.write ≤ c.read → c.tryRecv = (none, c, none, false)) :=
  ⟨fun h => trySend_full v h, fun h => tryRecv_empty h⟩

/-- C10 witness: a full channel rejects a `try_send` unchanged, and a
fresh channel rejects a `try_recv` unchanged. -/
theorem C10_failed_ops_pure_witness :
    Channel.trySend 5 (⟨List.replicate 8 (some 0), 0, 8,
        WakerSet.new Nat, WakerSet.new Nat⟩ : Channel Nat Nat) =
      (.error 5, ⟨List.replicate 8 (some 0), 0, 8,
        WakerSet.new Nat, WakerSet.new Nat⟩, none, false) ∧
    Channel.tryRecv (Channel.new Nat Nat) =
      (none, Channel.new Nat Nat, none, false) :=
  ⟨(C10_failed_ops_pure ⟨List.replicate 8 (some 0), 0, 8,
      WakerSet.new Nat, WakerSet.new Nat⟩ 5).1 (by decide),
   (C10_failed_ops_pure (Channel.new Nat Nat) 5).2 (by decide)⟩

/-- An empty channel whose cursors sit at `usize::MAX` (`USIZE - 1`).
It satisfies the claim's invariant `write - read ∈ [0, capacity]`, but
the source's guard `write < read + cap` computes `read + cap` in
`usize`, which wraps here (release build; a debug build panics). -/
def wrapChan : Channel Nat Nat :=
  ⟨List.replicate 8 none, USIZE - 1, USIZE - 1, WakerSet.new Nat, WakerSet.new Nat⟩

/-- C4 counterexample: the empty channel with both cursors at
`usize::MAX` satisfies `write - read = 0 < capacity`, yet `try_send`
returns `Err`: `read + cap` wraps to 6, the guard `write < 6` fails,
and the value comes back unsent — the claim's "succeeds exactly when
`write - read < capacity`" is false at this state. -/
theorem C4_counterexample :
    wrapChan.read ≤ wrapChan.write ∧
    wrapChan.write ≤ wrapChan.read + NTASKS ∧
    wrapChan.write - wrapChan.read < NTASKS ∧
    (wrapChan.trySend 5).1 = .error 5 :=
  ⟨by decide, by decide, by decide, rfl⟩

/-- C4 (amended): under the channel invariant
`write - read ∈ [0, capacity]` and away from the `usize` wrap boundary
(`read + capacity < 2^32`, so the source's `read + cap` does not
overflow), `try_send` succeeds exactly when `write - read < capacity`;
on success it writes the value into slot `write mod capacity`,
increments `write`, performs `notify_one` on the receiver registry and
signals the event-set latch; on a full channel it returns `Err`
carrying the same value; and from an empty channel, `capacity`
consecutive `try_send`s all succeed while the next one returns
`Err`. -/
theorem C4_try_send_amended {T W : Type} (c : Channel T W) (v : T)
    (hle : c.read ≤ c.write) (hcap : c.write ≤ c.read + NTASKS)
    (hno : c.read + NTASKS < USIZE) :
    ((c.trySend v).1 = .ok () ↔ c.write - c.read < NTASKS) ∧
    (c.write - c.read < NTASKS →
       c.trySend v = (.ok (),
         { c with buffer := c.buffer.set (c.write % NTASKS) (some v),
                  write := c.write + 1,
                  recv_wakers := (c.recv_wakers.notifyOne).1 },
         (c.recv_wakers.notifyOne).2.1, true)) ∧
    (c.write - c.read = NTASKS → (c.trySend v).1 = .error v) ∧
    (∀ vs : List T, vs.length = NTASKS → c.write = c.read →
       (∀ r ∈ (trySendMany vs c).1, r = .ok ()) ∧
       ∀ v2 : T, (((trySendMany vs c).2).trySend v2).1 = .error v2) := by
  refine ⟨?_, ?_, ?_, ?_⟩
  · constructor
    · intro hok
      by_contra hfull
      rw [trySend_full v (by omega)] at hok
      cases hok
    · intro hlt
      rw [trySend_lt v (by omega) hno]
  · intro hlt
    exact trySend_lt v (by omega) hno
  · intro heq
    rw [trySend_full v (by omega)]
  · intro vs hvs hempty
    have hmany := trySendMany_ok (c := c)
      (by omega : c.write + vs.length ≤ c.read + NTASKS) hno
    refine ⟨hmany.1, ?_⟩
    intro v2
    rw [trySend_full v2 (by rw [hmany.2.1, hmany.2.2]; omega)]

/-- C4 amended witness: a fresh channel accepts eight values and the
single `try_send` succeeds. -/
theorem C4_try_send_amended_witness :
    ((Channel.new Nat Nat).trySend 7).1 = .ok () ∧
    ∀ r ∈ (trySendMany [1, 2, 3, 4, 5, 6, 7, 8] (Channel.new Nat Nat)).1, r = .ok () :=
  ⟨((C4_try_send_amended (Channel.new Nat Nat) 7 (by decide) (by decide)
      (by decide)).1).2 (by decide),
   ((C4_try_send_amended (Channel.new Nat Nat) 7 (by decide) (by decide)
      (by decide)).2.2.2 [1, 2, 3, 4, 5, 6, 7, 8] (by decide) (by decide)).1⟩

/-- C8 counterexample: on a channel that already holds the value 99,
`send(v1); send(v2)` with `v1 = 1`, `v2 = 2` succeeds (a send with room
is exactly a successful `try_send`, channel.rs lines 60-78), and yet the
next `recv` returns the older 99 rather than `v1` — the claim's "for
every channel" fails for channels that are not empty when the pair of
sends begins. -/
theorem C8_counterexample :
    ((Channel.new Nat Nat).trySend 99).1 = .ok () ∧
    ((((Channel.new Nat Nat).trySend 99).2.1).trySend 1).1 = .ok () ∧
    (((((Channel.new Nat Nat).trySend 99).2.1).trySend 1).2.1.trySend 2).1 = .ok () ∧
    ((((((Channel.new Nat Nat).trySend 99).2.1).trySend 1).2.1.trySend 2).2.1.tryRecv).1
      = some (some 99) ∧
    (99 ≠ 1) := by
  refine ⟨rfl, rfl, rfl, by decide, by decide⟩

/-- C8 (amended): on a channel that is empty when the sends begin
(`write = read`, buffer of the ring's `NTASKS` slots) and whose `read`
cursor is below the `usize` wrap boundary (`read + capacity < 2^32`,
so the source's `read + cap` guard does not overflow), `send(v1)` then
`send(v2)` from a single task with no interleaved senders both succeed
immediately, and the next two `recv` operations return `v1` first and
then `v2` — FIFO order through the ring buffer. -/
theorem C8_channel_fifo_amended {T W : Type} (c : Channel T W) (v1 v2 : T)
    (hlen : c.buffer.length = NTASKS) (hempty : c.write = c.read)
    (hno : c.read + NTASKS < USIZE) :
    ((c.trySend v1).1 = .ok ()) ∧
    (((c.trySend v1).2.1.trySend v2).1 = .ok ()) ∧
    ((((c.trySend v1).2.1.trySend v2).2.1.tryRecv).1 = some (some v1)) ∧
    (((((c.trySend v1).2.1.trySend v2).2.1.tryRecv).2.1.tryRecv).1 = some (some v2)) := by
  have h1 : c.write < c.read + NTASKS := by
    unfold NTASKS
    omega
  have hs1 := trySend_lt v1 h1 hno
  set c1 := (c.trySend v1).2.1 with hc1
  have hc1buf : c1.buffer = c.buffer.set (c.write % NTASKS) (some v1) := by
    rw [hc1, hs1]
  have hc1w : c1.write = c.write + 1 := by rw [hc1, hs1]
  have hc1r : c1.read = c.read := by rw [hc1, hs1]
  have h2 : c1.write < c1.read + NTASKS := by
    unfold NTASKS
    omega
  have hs2 := trySend_lt v2 h2 (by rw [hc1r]; exact hno)
  set c2 := (c1.trySend v2).2.1 with hc2
  have hc2buf : c2.buffer
      = (c.buffer.set (c.write % NTASKS) (some v1)).set ((c.write + 1) % NTASKS) (some v2) := by
    rw [hc2, hs2]
    simp only [hc1buf, hc1w]
  have hc2w : c2.write = c.write + 2 := by
    rw [hc2, hs2]
    simp only [hc1w]
  have hc2r : c2.read = c.read := by
    rw [hc2, hs2]
    simp only [hc1r]
  have hmodne : (c.write + 1) % NTASKS ≠ c.write % NTASKS := by
    unfold NTASKS
    omega
  have hmodlt : c.write % NTASKS < c.buffer.length := by
    rw [hlen]
    unfold NTASKS
    omega
  have hmodlt2 : (c.write + 1) % NTASKS < c.buffer.length := by
    rw [hlen]
    unfold NTASKS
    omega
  have hr1 : c2.read < c2.write := by omega
  have hno1 : c2.read + 1 < USIZE := by
    rw [hc2r]
    unfold NTASKS at hno
    omega
  have hrecv1 := tryRecv_lt hr1 hno1
  have hval1 : c2.buffer.getD (c2.read % NTASKS) none = some v1 := by
    rw [hc2buf, hc2r, ← hempty, List.getD_eq_getD_get?,
      List.get?_set_ne _ _ hmodne, List.get?_set_eq_of_lt _ hmodlt]
    rfl
  set c3 := c2.tryRecv.2.1 with hc3
  have hc3buf : c3.buffer = c2.buffer := by rw [hc3, hrecv1]
  have hc3r : c3.read = c2.read + 1 := by rw [hc3, hrecv1]
  have hc3w : c3.write = c2.write := by rw [hc3, hrecv1]
  have hr2 : c3.read < c3.write := by omega
  have hno2 : c3.read + 1 < USIZE := by
    rw [hc3r, hc2r]
    unfold NTASKS at hno
    omega
  have hrecv2 := tryRecv_lt hr2 hno2
  have hval2 : c3.buffer.getD (c3.read % NTASKS) none = some v2 := by
    rw [hc3buf, hc2buf, hc3r, hc2r, ← hempty, List.getD_eq_getD_get?,
      List.get?_set_eq_of_lt _ (by rwa [List.length_set])]
    rfl
  refine ⟨by rw [hs1], by rw [hs2], ?_, ?_⟩
  · rw [hrecv1, hval1]
  · rw [hrecv2, hval2]

/-- C8 amended witness: a fresh channel delivers 1 then 2 in order. -/
theorem C8_channel_fifo_amended_witness :
    (((((Channel.new Nat Nat).trySend 1).2.1.trySend 2).2.1.tryRecv).1 = some (some 1)) ∧
    ((((((Channel.new Nat Nat).trySend 1).2.1.trySend 2).2.1.tryRecv).2.1.tryRecv).1
      = some (some 2)) :=
  ⟨(C8_channel_fifo_amended (Channel.new Nat Nat) 1 2 (by decide) rfl
      (by decide)).2.2.1,
   (C8_channel_fifo_amended (Channel.new Nat Nat) 1 2 (by decide) rfl
      (by decide)).2.2.2⟩

/-- What one `Lock::poll` call can do to the `locked` flag and the
ghost guard count: on a held mutex it leaves both unchanged and returns
pending; on a free mutex it acquires, creating a guard. -/
theorem lockPoll_char {w : W} {f : LockFut} {m : Mutex T W} {p : Poll Unit}
    {f₂ : LockFut} {m₂ : Mutex T W} (he : lockPoll w f m = .ok (p, f₂, m₂)) :
    (m.locked = true ∧ m₂.locked = m.locked ∧ m₂.guards = m.guards ∧ p = .pending) ∨
    (m.locked = false ∧ m₂.locked = true ∧ m₂.guards = m.guards + 1 ∧ p = .ready ()) := by
  have hm1 : ∃ ws, (match f.opt_key with
      | some k => { m with wakers := m.wakers.remove k }
      | none => m) = { m with wakers := ws } := by
    cases f.opt_key with
    | none => exact ⟨m.wakers, rfl⟩
    | some k => exact ⟨m.wakers.remove k, rfl⟩
  obtain ⟨ws, hws⟩ := hm1
  unfold lockPoll at he
  rw [hws] at he
  unfold Mutex.tryLock at he
  by_cases hl : m.locked = true
  · simp only [hl, if_true] at he
    simp at he
    rcases hins : WakerSet.insert w ws with _ | ⟨k, ws₂⟩
    · rw [hins] at he
      cases he
    · rw [hins] at he
      simp at he
      obtain ⟨hp, hf₂, hm₂⟩ := he
      left
      rw [← hm₂]
      exact ⟨hl, by simp [hl], rfl, hp.symm⟩
  · simp only [Bool.not_eq_true] at hl
    simp only [hl] at he
    simp at he
    obtain ⟨hp, hf₂, hm₂⟩ := he
    right
    rw [← hm₂]
    exact ⟨hl, rfl, rfl, hp.symm⟩

/-- Any mutex step preserves the guard-accounting invariant: the ghost
guard count is 1 while the mutex is held and 0 while it is free. -/
theorem mstep_inv {m m₂ : Mutex T W} (h : MStep m m₂)
    (hi : m.guards = if m.locked then 1 else 0) :
    m₂.guards = if m₂.locked then 1 else 0 := by
  cases h with
  | tryLock =>
    unfold Mutex.tryLock
    by_cases hl : m.locked = true
    · rw [if_pos hl]
      exact hi
    · rw [if_neg hl]
      simp only [Bool.not_eq_true] at hl
      simp [hl] at hi
      simp [hi]
  | lockPoll w f p f₂ m₂ he =>
    rcases lockPoll_char he with ⟨hl, hl₂, hg, _⟩ | ⟨hl, hl₂, hg, _⟩
    · rw [hg, hl₂]
      exact hi
    · rw [hg, hl₂]
      rw [hl] at hi
      simp at hi
      simp [hi]
  | guardDrop hg =>
    unfold guardDrop
    by_cases hl : m.locked = true <;> simp [hl] at hi <;> simp <;> omega
  | lockDrop f =>
    unfold lockDrop
    cases hf : f.opt_key with
    | none => exact hi
    | some k => exact hi

/-- C6 counterexample: the mutex state below — held, ghost guard count
1, waiter registry `[entry 0: notified, entry 1: live waiter 7]` — is
reachable from a fresh mutex, a live waiter is registered, and yet
dropping the guard notifies nobody: `notify_any` stops at the first
occupied entry, which was already notified.  This contradicts the
claim's "dropping a guard ... notifies exactly one waiter (if any
waiter is registered)". -/
theorem C6_counterexample :
    Relation.ReflTransGen MStep (Mutex.new Nat (0 : Nat))
      ⟨true, 0, ⟨[some none, some (some 7)], 1⟩, 1⟩ ∧
    0 < liveCount
      (Mutex.wakers (⟨true, 0, ⟨[some none, some (some 7)], 1⟩, 1⟩ : Mutex Nat Nat)).entries ∧
    (guardDrop (⟨true, 0, ⟨[some none, some (some 7)], 1⟩, 1⟩ : Mutex Nat Nat)).2.1 = none ∧
    (guardDrop (⟨true, 0, ⟨[some none, some (some 7)], 1⟩, 1⟩ : Mutex Nat Nat)).2.2 = false := by
  refine ⟨?_, by decide, by decide, by decide⟩
  have h1 : MStep (Mutex.new Nat (0 : Nat)) ⟨true, 0, ⟨[], 0⟩, 1⟩ :=
    MStep.tryLock _
  have h2 : MStep (⟨true, 0, ⟨[], 0⟩, 1⟩ : Mutex Nat Nat)
      ⟨true, 0, ⟨[some (some 5)], 1⟩, 1⟩ :=
    MStep.lockPoll _ 5 ⟨none⟩ .pending ⟨some 0⟩ _ rfl
  have h3 : MStep (⟨true, 0, ⟨[some (some 5)], 1⟩, 1⟩ : Mutex Nat Nat)
      ⟨true, 0, ⟨[some (some 5), some (some 7)], 2⟩, 1⟩ :=
    MStep.lockPoll _ 7 ⟨none⟩ .pending ⟨some 1⟩ _ rfl
  have h4 : MStep (⟨true, 0, ⟨[some (some 5), some (some 7)], 2⟩, 1⟩ : Mutex Nat Nat)
      ⟨false, 0, ⟨[some none, some (some 7)], 1⟩, 0⟩ :=
    MStep.guardDrop _ (by decide)
  have h5 : MStep (⟨false, 0, ⟨[some none, some (some 7)], 1⟩, 0⟩ : Mutex Nat Nat)
      ⟨true, 0, ⟨[some none, some (some 7)], 1⟩, 1⟩ :=
    MStep.tryLock _
  exact ((((Relation.ReflTransGen.refl.tail h1).tail h2).tail h3).tail h4).tail h5

/-- C6 (amended): in every reachable mutex state at most one guard is
outstanding; `try_lock` returns a guard exactly when the held-flag is
`false`, setting it (and leaves a held mutex unchanged); a `lock` poll
on a held mutex returns pending; and dropping a guard clears the
held-flag and performs `notify_any`, which notifies exactly one waiter
when the first occupied registry entry still holds its callback and
notifies nobody otherwise — even if a live waiter is registered behind
an already-notified entry. -/
theorem C6_mutex_amended {T W : Type} (m : Mutex T W) (t : T)
    (hreach : Relation.ReflTransGen MStep (Mutex.new W t) m) :
    m.guards ≤ 1 ∧
    ((m.tryLock).1 = !m.locked) ∧
    (m.locked = false →
       (m.tryLock).2 = { m with locked := true, guards := m.guards + 1 }) ∧
    (m.locked = true → (m.tryLock).2 = m) ∧
    (∀ (w : W) (f : LockFut) (p : Poll Unit) (f₂ : LockFut) (m₂ : Mutex T W),
       m.locked = true → lockPoll w f m = .ok (p, f₂, m₂) → p = .pending) ∧
    ((guardDrop m).1.locked = false) ∧
    (∀ w : W, headEnt m.wakers.entries = some (some w) →
       (guardDrop m).2.1 = some w ∧ (guardDrop m).2.2 = true) ∧
    (headEnt m.wakers.entries = none ∨ headEnt m.wakers.entries = some none →
       (guardDrop m).2.1 = none ∧ (guardDrop m).2.2 = false ∧
         (guardDrop m).1.wakers = m.wakers) := by
  have hinv : m.guards = if m.locked then 1 else 0 := by
    induction hreach with
    | refl => rfl
    | tail h1 hstep ih => exact mstep_inv hstep ih
  refine ⟨?_, ?_, ?_, ?_, ?_, ?_, ?_, ?_⟩
  · by_cases hl : m.locked = true <;> simp [hl] at hinv <;> omega
  · unfold Mutex.tryLock
    by_cases hl : m.locked = true <;> simp [hl]
  · intro hl
    unfold Mutex.tryLock
    simp [hl]
  · intro hl
    unfold Mutex.tryLock
    simp [hl]
  · intro w f p f₂ m₂ hl he
    rcases lockPoll_char he with ⟨_, _, _, hp⟩ | ⟨hl2, _, _, _⟩
    · exact hp
    · rw [hl] at hl2
      cases hl2
  · rfl
  · intro w hw
    have h := notifyGo_any_head_live hw
    unfold guardDrop WakerSet.notifyAny WakerSet.notify
    rw [h]
    exact ⟨rfl, rfl⟩
  · intro hd
    have h := notifyGo_any_head_dead hd
    unfold guardDrop WakerSet.notifyAny WakerSet.notify
    rw [h]
    exact ⟨rfl, rfl, rfl⟩

/-- C6 amended witness: the invariant and `try_lock` behavior at a
fresh mutex. -/
theorem C6_mutex_amended_witness :
    Mutex.guards (Mutex.new Nat (0 : Nat)) ≤ 1 ∧
    ((Mutex.new Nat (0 : Nat)).tryLock).1 = true :=
  ⟨(C6_mutex_amended (Mutex.new Nat (0 : Nat)) 0 Relation.ReflTransGen.refl).1,
   (C6_mutex_amended (Mutex.new Nat (0 : Nat)) 0 Relation.ReflTransGen.refl).2.1⟩

/-- The channel state after one receiver (waker 1) suspended on the
empty fresh channel. -/
def cancelScn1 : Channel Nat Nat :=
  ⟨List.replicate 8 none, 0, 0, ⟨[], 0⟩, ⟨[some (some 1)], 1⟩⟩

/-- ... after a second receiver (waker 2) also suspended. -/
def cancelScn2 : Channel Nat Nat :=
  ⟨List.replicate 8 none, 0, 0, ⟨[], 0⟩, ⟨[some (some 1), some (some 2)], 2⟩⟩

/-- ... after a producer sent the value 42: `notify_one` picked the
first receiver, whose registry entry is now present with its callback
taken, while the second receiver still waits. -/
def cancelScn3 : Channel Nat Nat :=
  ⟨[some 42, none, none, none, none, none, none, none], 0, 1,
   ⟨[], 0⟩, ⟨[some none, some (some 2)], 1⟩⟩

/-- C1: the claim holds for the mutex `Lock` future, whose `Drop` impl
calls `cancel` — but the channel `Send`/`Recv` futures of channel.rs
have no `Drop` impl at all.  In the scenario below (spec section 8,
scenario 4) two receivers suspend on an empty channel and a producer
sends one value, which notifies receiver 0; dropping receiver 0's
future while its key is still registered leaves the channel completely
unchanged — the notified entry stays in the registry and no alternate
waiter is woken — whereas the `cancel` the spec requires would have
propagated the pending notification to receiver 2.  The last conjunct
shows the mutex future's drop, which does call `cancel`, propagating
correctly in the matching registry state. -/
theorem C1_channel_drop_lacks_cancel :
    (recvPoll 1 ⟨none⟩ (Channel.new Nat Nat) =
       .ok (.pending, ⟨some 0⟩, cancelScn1, none, false)) ∧
    (recvPoll 2 ⟨none⟩ cancelScn1 =
       .ok (.pending, ⟨some 1⟩, cancelScn2, none, false)) ∧
    (cancelScn2.trySend 42 = (.ok (), cancelScn3, some 1, true)) ∧
    (recvDrop ⟨some 0⟩ cancelScn3 = cancelScn3) ∧
    (getSlot 0 cancelScn3.recv_wakers.entries = some none) ∧
    ((cancelScn3.recv_wakers.cancel 0).2.1 = some 2) ∧
    ((cancelScn3.recv_wakers.cancel 0).2.2 = true) ∧
    (lockDrop ⟨some 0⟩ (⟨true, 0, ⟨[some none, some (some 2)], 1⟩, 1⟩ : Mutex Nat Nat)
       = (⟨true, 0, ⟨[none, some none], 0⟩, 1⟩, some 2, true)) :=
  ⟨rfl, rfl, rfl, rfl, rfl, rfl, rfl, rfl⟩

/-- A nonempty run of wake stores leaves the flag set. -/
theorem runFlag_all_wake {evs : List Ev}
    (hall : ∀ e ∈ evs, e = Ev.wake) : runFlag true evs = true := by
  induction evs with
  | nil => rfl
  | cons e es ih =>
    have he : e = Ev.wake := hall e (List.mem_cons_self e es)
    subst he
    exact ih fun e h => hall e (List.mem_cons_of_mem _ h)

/-- C7: in the `block_on` loop the ready flag is stored `false` before
the task's computation is polled (so with no wake in between, the next
load sees `false`: third conjunct); therefore any wake stored during
the poll or after it returns pending — interrupt handlers only ever
store `true` — is observed by the next iteration's load, and the task
is polled again in the next round. -/
theorem C7_no_lost_wake (during next2 : List Ev)
    (hall : ∀ e ∈ during, e = Ev.wake) (hne : during ≠ []) :
    serviceTask true during = (true, true) ∧
    (serviceTask ((serviceTask true during).2) next2).1 = true ∧
    (serviceTask true []).2 = false := by
  have hflag : runFlag false during = true := by
    rcases during with _ | ⟨e, es⟩
    · cases hne rfl
    · have he : e = Ev.wake := hall e (List.mem_cons_self e es)
      subst he
      exact runFlag_all_wake fun e h => hall e (List.mem_cons_of_mem _ h)
  have h1 : serviceTask true during = (true, true) := by
    unfold serviceTask
    rw [if_pos rfl]
    show (true, runFlag false during) = (true, true)
    rw [hflag]
  refine ⟨h1, ?_, rfl⟩
  rw [h1]
  rfl

/-- C7 witness: a single wake during the poll is seen next round. -/
theorem C7_no_lost_wake_witness :
    serviceTask true [Ev.wake] = (true, true) :=
  (C7_no_lost_wake [Ev.wake] [] (by decide) (by decide)).1

/-- A slab in which every slot is occupied has no vacant key. -/
theorem firstVacant_none_of_full {es : Slots W}
    (h : occupiedCount es = es.length) : firstVacant es = none := by
  induction es with
  | nil => rfl
  | cons x xs ih =>
    rcases x with _ | e
    · exfalso
      rw [occupiedCount_cons] at h
      simp [isOccupied] at h
      have := List.countP_le_length (p := isOccupied (W := W)) (l := xs)
      unfold occupiedCount at h
      omega
    · rw [occupiedCount_cons] at h
      simp [isOccupied] at h
      unfold firstVacant
      rw [ih h]
      rfl

/-- C9: each structural violation of the fatal list aborts.
A nested `block_on` aborts; a `spawn` onto a task table already
holding `NTASKS` tasks aborts; a bump-arena allocation that does not
fit the remaining space aborts (arena modelled from the spec, see
`Alloc`); accessing the executor from interrupt context aborts; a
spawned task's computation resolving aborts through the `Task::new`
shim; and inserting into a waker registry already holding `NTASKS`
entries aborts. -/
theorem C9_fatal_aborts :
    (blockOnEnter true = .error ()) ∧
    (∀ (α : Type) (ts : List α) (t : α), ts.length = NTASKS →
       spawnPush ts t = .error ()) ∧
    (∀ (a : Alloc) (align sz : Nat), a.size < alignUp a.pos align + sz →
       a.allocInit align sz = .error ()) ∧
    (currentGate false = .error ()) ∧
    (∀ (α : Type) (v : α), shimPoll (.ready v) = .error ()) ∧
    (∀ (W : Type) (s : WakerSet W) (w : W), s.entries.length ≤ NTASKS →
       occupiedCount s.entries = NTASKS → s.insert w = .error ()) := by
  refine ⟨rfl, ?_, ?_, rfl, fun α v => rfl, ?_⟩
  · intro α ts t hlen
    unfold spawnPush
    rw [if_neg (by omega)]
  · intro a align sz h
    unfold Alloc.allocInit
    rw [if_neg (by omega)]
  · intro W s w hlen hocc
    have hfull : s.entries.length = NTASKS := by
      have := List.countP_le_length (p := isOccupied (W := W)) (l := s.entries)
      unfold occupiedCount at hocc
      omega
    have hv : firstVacant s.entries = none :=
      firstVacant_none_of_full (by rw [hocc, hfull])
    unfold WakerSet.insert
    rw [hv]
    rw [if_neg (by omega)]

/-- C9 witness: the six abort conditions at concrete inputs. -/
theorem C9_fatal_aborts_witness :
    spawnPush [0, 1, 2, 3, 4, 5, 6, 7] (9 : Nat) = .error () ∧
    Alloc.allocInit 4 16 ⟨1020, 1024⟩ = .error () ∧
    WakerSet.insert 9 (⟨[some none, some none, some none, some none,
        some none, some none, some none, some none], 0⟩ : WakerSet Nat) = .error () :=
  ⟨(C9_fatal_aborts).2.1 Nat [0, 1, 2, 3, 4, 5, 6, 7] 9 (by decide),
   (C9_fatal_aborts).2.2.1 ⟨1020, 1024⟩ 4 16 (by decide),
   (C9_fatal_aborts).2.2.2.2.2 Nat ⟨[some none, some none, some none, some none,
      some none, some none, some none, some none], 0⟩ 9 (by decide) (by decide)⟩
